import Mathlib

/-!
Verification of the concurrency/register design of the fx PCI device
(src/hw/misc/fx.c) against its natural-language specification.

The device functions are shallowly embedded: machine integers are `Nat`
with explicit reduction modulo 2^32 (the C code works on `uint32_t` /
`unsigned int` values) where the C code can overflow or truncate; the
observable effects of the interrupt signaling primitives (`msi_notify`,
`pci_set_irq`) are recorded as explicit fields of the device state
(`msi_count` counts MSI notifications, `irq_level` is the INTx line
level).  The thread/condition-variable structure of `fx_forcer_thread`,
`wait_device_driver`, `fx_mmio_write` and `pci_fx_uninit` is embedded as
a labelled transition system `Step` over a system state carrying the
worker's control location; `qemu_cond_signal` with no thread blocked in
`qemu_cond_wait` is a no-op (the signal is lost), exactly as for the
underlying primitive.  Spurious condition-variable wakeups are not
modelled.
-/

namespace Fx

/-! ## Register offsets and constants (fx.c lines 26-35) -/

def ID_REGISTER : Nat := 0x00
def CARD_LIVENESS_REGISTER : Nat := 0x04
def SCHEDULE_NEXT_REGISTER : Nat := 0x08
def INTERRUPT_STATUS_REGISTER : Nat := 0x24
def START_THREAD_REGISTER : Nat := 0x30
def INTERRUPT_RAISE_REGISTER : Nat := 0x60
def INTERRUPT_ACK_REGISTER : Nat := 0x64

def CONF_INTERVAL_DEFAULT : Nat := 10

/-- glib constant: microseconds per second. -/
def G_USEC_PER_SEC : Nat := 1000000

/-- Modulus of 32-bit unsigned arithmetic (`unsigned int` / `uint32_t`). -/
def U32 : Nat := 2 ^ 32

/-- Value of `~0ULL`, the default returned by `fx_mmio_read`. -/
def ALL_ONES_64 : Nat := 2 ^ 64 - 1

/-- Bitwise complement on 32 bits: `~v` for a `uint32_t` argument. -/
def compl32 (v : Nat) : Nat := U32 - 1 - v % U32

/-! ## Device state

Fields of `struct FxState` relevant to the claims, plus the observable
effect of the interrupt signaling calls.  `msi_enabled` abstracts
`msi_enabled(&fx->pdev)` (fixed per instance here; the claims only need
it constant across a single raise/lower), `msi_count` counts the
`msi_notify` calls issued so far, `irq_level` is the level of the INTx
line driven by `pci_set_irq`, and `connOpen` records whether the
configuration-channel connection `conn_fd` is open. -/

structure FxState where
  irq_status : Nat
  card_liveness : Nat
  stopping : Bool
  conf_sleep_interval : Nat
  msi_enabled : Bool
  irq_level : Bool
  msi_count : Nat
  connOpen : Bool
deriving DecidableEq, Repr

/-- Device fields as set up by `fx_instance_init` (card_liveness) and
`conf_server_init` (default interval); no interrupt pending, line low,
no notification sent, stop flag clear. -/
def fxInit (msi : Bool) : FxState :=
  { irq_status := 0
    card_liveness := 0xdeadbeef
    stopping := false
    conf_sleep_interval := CONF_INTERVAL_DEFAULT
    msi_enabled := msi
    irq_level := false
    msi_count := 0
    connOpen := false }

/-! ## Interrupt line (fx.c lines 93-112) -/

/-- Embedding of `fx_raise_irq` (fx.c lines 93-103): OR `val` (a
`uint32_t` parameter, hence the truncation) into `irq_status`; then, if
the resulting status is non-zero, call `msi_notify` when MSI is enabled
and otherwise assert the INTx line (`pci_set_irq(.., 1)`). -/
def fx_raise_irq (fx : FxState) (val : Nat) : FxState :=
  let st := fx.irq_status ||| val % U32
  { fx with
    irq_status := st
    msi_count := if st ≠ 0 ∧ fx.msi_enabled = true then fx.msi_count + 1 else fx.msi_count
    irq_level := if st ≠ 0 ∧ fx.msi_enabled = false then true else fx.irq_level }

/-- Embedding of `fx_lower_irq` (fx.c lines 105-112): AND the 32-bit
complement of `val` into `irq_status`; if the status is now zero and MSI
is not enabled, deassert the INTx line (`pci_set_irq(.., 0)`). -/
def fx_lower_irq (fx : FxState) (val : Nat) : FxState :=
  let st := fx.irq_status &&& compl32 val
  { fx with
    irq_status := st
    irq_level := if st = 0 ∧ fx.msi_enabled = false then false else fx.irq_level }

/-! ## Register file (fx.c lines 114-169) -/

/-- Embedding of `fx_mmio_read` (fx.c lines 114-139).  The state is
returned alongside the value to make the absence of state mutation in
the C body explicit.  `val` starts as `~0ULL`; a non-4-byte access
returns it immediately; otherwise only the ID, card-liveness and
interrupt-status offsets overwrite it, every other offset falls through
the `default` case. -/
def fx_mmio_read (fx : FxState) (addr size : Nat) : Nat × FxState :=
  if size ≠ 4 then (ALL_ONES_64, fx)
  else if addr = ID_REGISTER then (0x01000ed, fx)
  else if addr = CARD_LIVENESS_REGISTER then (fx.card_liveness, fx)
  else if addr = INTERRUPT_STATUS_REGISTER then (fx.irq_status, fx)
  else (ALL_ONES_64, fx)

/-- Embedding of the state effect of `fx_mmio_write` (fx.c lines
141-169).  A non-4-byte access returns immediately.  Writes to
START_THREAD_REGISTER and SCHEDULE_NEXT_REGISTER only signal the
rendezvous condition variable (modelled in the `Step` relation below)
and leave the device fields unchanged; the INTERRUPT_RAISE_REGISTER
case is a no-op (the `fx_raise_irq` call is commented out in the
source); INTERRUPT_ACK_REGISTER lowers the written cause bits; any
other offset is ignored. -/
def fx_mmio_write (fx : FxState) (addr val size : Nat) : FxState :=
  if size ≠ 4 then fx
  else if addr = START_THREAD_REGISTER then fx
  else if addr = SCHEDULE_NEXT_REGISTER then fx
  else if addr = INTERRUPT_RAISE_REGISTER then fx
  else if addr = INTERRUPT_ACK_REGISTER then fx_lower_irq fx val
  else fx

/-- Offsets of the seven defined registers of the register file. -/
def definedOffsets : List Nat :=
  [ID_REGISTER, CARD_LIVENESS_REGISTER, SCHEDULE_NEXT_REGISTER,
   INTERRUPT_STATUS_REGISTER, START_THREAD_REGISTER,
   INTERRUPT_RAISE_REGISTER, INTERRUPT_ACK_REGISTER]

/-! ## Worker sleep computation (fx.c lines 197-200)

The argument of `g_usleep` is
`(interval * G_USEC_PER_SEC / 10) + (*(unsigned int *)buf % (G_USEC_PER_SEC / 100))`
computed entirely in `unsigned int` (32-bit) arithmetic: the
multiplication wraps modulo 2^32 before the division by 10, and the
random value read from `/dev/urandom` is an `unsigned int`. -/

/-- Base period term `interval * G_USEC_PER_SEC / 10` in 32-bit
unsigned arithmetic. -/
def base32 (interval : Nat) : Nat := interval * G_USEC_PER_SEC % U32 / 10

/-- Jitter term `rand % (G_USEC_PER_SEC / 100)` for the 32-bit random
value `rand`. -/
def jitter32 (rand : Nat) : Nat := rand % U32 % (G_USEC_PER_SEC / 100)

/-- Total argument passed to `g_usleep`, in 32-bit unsigned
arithmetic. -/
def sleep_usec (interval rand : Nat) : Nat := (base32 interval + jitter32 rand) % U32

/-- Largest possible value of the jitter term. -/
def max_jitter : Nat := G_USEC_PER_SEC / 100 - 1

/-! ## Configuration channel (fx.c lines 275-292) -/

/-- Outcome of the `read(2)` call in `read_conf_server_callback`:
`ret` is the return value of `read` (-1 on error, otherwise the number
of bytes read, between 0 and 4), and `bufAfter` is the contents of the
4-byte local variable `interval` after the call returns (on an error or
a short read this includes bytes `read` never wrote, i.e. uninitialized
stack contents). -/
structure ReadOutcome where
  ret : Int
  bufAfter : Nat
deriving DecidableEq, Repr

/-- Embedding of `read_conf_server_callback` (fx.c lines 275-292): the
return value of `read(2)` is ignored; whatever is in the local
`interval` variable after the call is stored into
`conf_sleep_interval` under `conf_mutex`, then the fd handler is
deregistered and the connection closed. -/
def read_conf_server_callback (fx : FxState) (r : ReadOutcome) : FxState :=
  { fx with conf_sleep_interval := r.bufAfter % U32, connOpen := false }

/-! ## Numeric helper lemmas for the sleep computation -/

/-- The 32-bit base period term is below 2^32 / 10 rounded up. -/
theorem base32_lt (i : Nat) : base32 i < 429496730 := by
  have h : i * G_USEC_PER_SEC % U32 < 4294967296 := by
    have := @Nat.mod_lt (i * G_USEC_PER_SEC) U32 (by norm_num [U32])
    simpa [U32] using this
  have hU : U32 = 4294967296 := by norm_num [U32]
  unfold base32
  rw [hU]
  omega

/-- The jitter term is strictly below its modulus `G_USEC_PER_SEC / 100`. -/
theorem jitter32_lt (r : Nat) : jitter32 r < G_USEC_PER_SEC / 100 := by
  unfold jitter32
  exact Nat.mod_lt _ (by norm_num [G_USEC_PER_SEC])

/-- The final reduction modulo 2^32 in the sleep computation never fires:
the 32-bit sum of base period and jitter cannot overflow. -/
theorem sleep_usec_eq (i r : Nat) : sleep_usec i r = base32 i + jitter32 r := by
  unfold sleep_usec
  apply Nat.mod_eq_of_lt
  have h1 := base32_lt i
  have h2 := jitter32_lt r
  have hg : G_USEC_PER_SEC / 100 = 10000 := by norm_num [G_USEC_PER_SEC]
  have hU : U32 = 4294967296 := by norm_num [U32]
  rw [hg] at h2
  rw [hU]
  omega

/-! ## Claims about the pure register and interrupt functions -/

/-- C3 counterexample: a 4-byte MMIO read of the schedule-next register
(offset 0x08) does not return zero (it returns the all-ones default). -/
theorem C3_counterexample :
    (fx_mmio_read (fxInit false) SCHEDULE_NEXT_REGISTER 4).1 ≠ 0 := by decide

/-- C3 amended: for every device state, a 4-byte MMIO read of the
schedule-next (0x08), start (0x30), interrupt-raise (0x60) and
interrupt-acknowledge (0x64) offsets returns all-ones (`~0ULL`), because
`fx_mmio_read` handles none of these offsets and falls through to the
`default` case, exactly as for unmapped offsets. -/
theorem C3_amended (fx : FxState) :
    (fx_mmio_read fx SCHEDULE_NEXT_REGISTER 4).1 = ALL_ONES_64 ∧
    (fx_mmio_read fx START_THREAD_REGISTER 4).1 = ALL_ONES_64 ∧
    (fx_mmio_read fx INTERRUPT_RAISE_REGISTER 4).1 = ALL_ONES_64 ∧
    (fx_mmio_read fx INTERRUPT_ACK_REGISTER 4).1 = ALL_ONES_64 :=
  ⟨rfl, rfl, rfl, rfl⟩

/-- C4 (code bug): `read_conf_server_callback` ignores the return value
of `read(2)`, so on a read error (ret -1) or a short read (ret 1) it
publishes whatever junk is in the stack buffer into the ScheduleConfig
interval instead of leaving it unmodified. -/
theorem C4_short_read_publishes :
    (fxInit false).conf_sleep_interval = 10 ∧
    (read_conf_server_callback (fxInit false)
        (ReadOutcome.mk (-1) 42)).conf_sleep_interval = 42 ∧
    (read_conf_server_callback (fxInit false)
        (ReadOutcome.mk 1 7)).conf_sleep_interval = 7 := by
  refine ⟨rfl, ?_, ?_⟩ <;> decide

/-- Device state with MSI enabled and interrupt cause bit 0 already
pending: used to exercise `fx_raise_irq` on a non-zero mask. -/
def fxPending : FxState := { fxInit true with irq_status := 1 }

/-- C5 counterexample: with the mask already non-zero before the raise,
`fx_raise_irq` still issues an additional `msi_notify` (its guard is
"mask non-zero after the OR", not "mask was zero before"). -/
theorem C5_counterexample :
    fxPending.irq_status ≠ 0 ∧
    (fx_raise_irq fxPending 2).msi_count = fxPending.msi_count + 1 := by decide

/-- C5 amended: `fx_raise_irq` ORs `cause_bits` into the mask and, with
MSI signaling, emits exactly one notification whenever the resulting
mask is non-zero — including when the mask was already non-zero before
the raise — and emits none only when the resulting mask is zero. -/
theorem C5_msi_raise (fx : FxState) (val : Nat) (hmsi : fx.msi_enabled = true) :
    (fx_raise_irq fx val).irq_status = (fx.irq_status ||| val % U32) ∧
    ((fx.irq_status ||| val % U32) ≠ 0 →
      (fx_raise_irq fx val).msi_count = fx.msi_count + 1) ∧
    ((fx.irq_status ||| val % U32) = 0 →
      (fx_raise_irq fx val).msi_count = fx.msi_count) := by
  refine ⟨rfl, ?_, ?_⟩
  · intro h
    unfold fx_raise_irq
    simp [h, hmsi]
  · intro h
    unfold fx_raise_irq
    simp [h]

/-- C5 witness: raising cause bit 0 on a fresh MSI device emits the
single notification the amended claim predicts. -/
theorem C5_witness :
    (fx_raise_irq (fxInit true) 1).msi_count = (fxInit true).msi_count + 1 :=
  (C5_msi_raise (fxInit true) 1 rfl).2.1 (by decide)

/-- C6 counterexample: with the jitter value held fixed at 0, the sleep
computation is not monotone: interval 4295 makes the 32-bit product
`interval * G_USEC_PER_SEC` wrap, giving a much shorter sleep than
interval 4294. -/
theorem C6_counterexample :
    (4294 : Nat) ≤ 4295 ∧ sleep_usec 4295 0 < sleep_usec 4294 0 := by decide

/-- C6 amended: the computed sleep duration is monotone non-decreasing
in the interval (jitter fixed) whenever the 32-bit product
`interval * G_USEC_PER_SEC` does not overflow (interval at most 4294);
for every interval and jitter it is bounded above by the computed base
period plus the maximal jitter; and the jitter term is always strictly
below `G_USEC_PER_SEC / 100`, which is itself strictly below one base
unit `G_USEC_PER_SEC / 10`. -/
theorem C6_sleep_monotone_bounded :
    (∀ i1 i2 r, i1 ≤ i2 → i2 * G_USEC_PER_SEC < U32 →
      sleep_usec i1 r ≤ sleep_usec i2 r) ∧
    (∀ i r, sleep_usec i r ≤ base32 i + max_jitter) ∧
    (∀ r, jitter32 r < G_USEC_PER_SEC / 100) ∧
    G_USEC_PER_SEC / 100 < G_USEC_PER_SEC / 10 := by
  refine ⟨?_, ?_, jitter32_lt, by norm_num [G_USEC_PER_SEC]⟩
  · intro i1 i2 r h12 hov
    rw [sleep_usec_eq, sleep_usec_eq]
    have hb : base32 i1 ≤ base32 i2 := by
      unfold base32
      have h1 : i1 * G_USEC_PER_SEC ≤ i2 * G_USEC_PER_SEC :=
        Nat.mul_le_mul_right _ h12
      rw [Nat.mod_eq_of_lt (lt_of_le_of_lt h1 hov), Nat.mod_eq_of_lt hov]
      exact Nat.div_le_div_right h1
    exact Nat.add_le_add_right hb _
  · intro i r
    rw [sleep_usec_eq]
    have h2 := jitter32_lt r
    have hg : G_USEC_PER_SEC / 100 = 10000 := by norm_num [G_USEC_PER_SEC]
    unfold max_jitter
    rw [hg] at h2 ⊢
    omega

/-- C6 witness: the monotonicity and bound instantiated on the concrete
intervals 10 and 20 with jitter 0. -/
theorem C6_witness :
    sleep_usec 10 0 ≤ sleep_usec 20 0 ∧ sleep_usec 10 0 ≤ base32 10 + max_jitter :=
  ⟨C6_sleep_monotone_bounded.1 10 20 0 (by norm_num)
      (by norm_num [G_USEC_PER_SEC, U32]),
   C6_sleep_monotone_bounded.2.1 10 0⟩

/-- C8: a 4-byte read of any offset outside the defined register set
returns all-ones, and any access whose width is not 4 bytes is a no-op
on the device state, the read returning all-ones and the write being
ignored. -/
theorem C8_unmapped_and_width (fx : FxState) (addr v sz : Nat) :
    (addr ∉ definedOffsets → (fx_mmio_read fx addr 4).1 = ALL_ONES_64) ∧
    (sz ≠ 4 →
      fx_mmio_write fx addr v sz = fx ∧
      (fx_mmio_read fx addr sz).1 = ALL_ONES_64 ∧
      (fx_mmio_read fx addr sz).2 = fx) := by
  constructor
  · intro h
    have h0 : addr ≠ ID_REGISTER := fun e => h (by rw [e]; simp [definedOffsets])
    have h4 : addr ≠ CARD_LIVENESS_REGISTER := fun e => h (by rw [e]; simp [definedOffsets])
    have h24 : addr ≠ INTERRUPT_STATUS_REGISTER := fun e => h (by rw [e]; simp [definedOffsets])
    unfold fx_mmio_read
    rw [if_neg (by decide), if_neg h0, if_neg h4, if_neg h24]
  · intro h
    refine ⟨?_, ?_, ?_⟩
    · unfold fx_mmio_write
      rw [if_pos h]
    · unfold fx_mmio_read
      rw [if_pos h]
    · unfold fx_mmio_read
      rw [if_pos h]

/-- C8 witness: an unmapped 4-byte read at offset 0x100 returns
all-ones, and a 2-byte write to the acknowledge register is ignored. -/
theorem C8_witness :
    (fx_mmio_read (fxInit false) 0x100 4).1 = ALL_ONES_64 ∧
    fx_mmio_write (fxInit false) INTERRUPT_ACK_REGISTER 1 2 = fxInit false :=
  ⟨(C8_unmapped_and_width (fxInit false) 0x100 1 2).1 (by decide),
   ((C8_unmapped_and_width (fxInit false) INTERRUPT_ACK_REGISTER 1 2).2
      (by decide)).1⟩

/-- C9: an acknowledge write when no interrupt is pending (mask zero,
line deasserted) leaves the device state unchanged, and
`fx_lower_irq` is idempotent on every state. -/
theorem C9_ack_noop_idempotent (fx : FxState) (v : Nat)
    (h0 : fx.irq_status = 0) (hl : fx.irq_level = false) :
    fx_lower_irq fx v = fx ∧
    ∀ (g : FxState) (u : Nat),
      fx_lower_irq (fx_lower_irq g u) u = fx_lower_irq g u := by
  constructor
  · unfold fx_lower_irq
    cases fx with
    | mk a b c d e f g h =>
      simp only at h0 hl
      subst h0
      subst hl
      simp [Nat.zero_and]
  · intro g u
    unfold fx_lower_irq
    by_cases hP : (g.irq_status &&& compl32 u = 0 ∧ g.msi_enabled = false)
    · simp [hP, Nat.and_assoc, Nat.and_self]
    · simp [hP, Nat.and_assoc, Nat.and_self]

/-- C9 witness: lowering cause bits 5 on a fresh device with nothing
pending is a no-op. -/
theorem C9_witness : fx_lower_irq (fxInit false) 5 = fxInit false :=
  (C9_ack_noop_idempotent (fxInit false) 5 rfl rfl).1

/-- C10: every MMIO read returns the device state unchanged, and a
repeated read (with no intervening write or worker action) returns the
same value. -/
theorem C10_read_pure (fx : FxState) (addr size : Nat) :
    (fx_mmio_read fx addr size).2 = fx ∧
    (fx_mmio_read ((fx_mmio_read fx addr size).2) addr size).1
      = (fx_mmio_read fx addr size).1 := by
  have h2 : (fx_mmio_read fx addr size).2 = fx := by
    unfold fx_mmio_read
    repeat' split
    all_goals rfl
  exact ⟨h2, by rw [h2]⟩

/-! ## Labelled transition system for the worker / controller / channel

Control locations of the Event Worker thread (`wait_device_driver` and
`fx_forcer_thread`, fx.c lines 171-218):

* `armedWait`: blocked in the initial `qemu_cond_wait` of
  `wait_device_driver` (fx.c line 175);
* `cycleTop`: at the top of the `while (1)` loop, about to read the
  configured interval under `conf_mutex` (fx.c lines 188-195);
* `sleeping iv`: inside `g_usleep` with the interval value `iv` it read
  (fx.c lines 197-200) — not holding `thr_mutex`, not in a wait;
* `waiting`: blocked in the loop's `qemu_cond_wait` after raising the
  interrupt (fx.c line 205);
* `wokenChk`: returned from that wait holding `thr_mutex`, about to
  check `stopping` (fx.c line 207);
* `done`: thread exited.

The raise (fx.c line 203) and the entry into `qemu_cond_wait` happen
under one `thr_mutex` critical section, so they form one atomic step;
`qemu_cond_signal` with no thread in a wait is a no-op (lost signal).
After `pci_fx_uninit` signals, it blocks in `qemu_thread_join` holding
the global lock, so no further register access or I/O callback can be
serviced: steps of the reactor contexts require `torn = false`. -/

inductive WLoc where
  | armedWait
  | cycleTop
  | sleeping (iv : Nat)
  | waiting
  | wokenChk
  | done
deriving DecidableEq, Repr

/-- Effect of `qemu_cond_signal(&fx->thr_cond)` on the worker location:
a worker blocked in one of the two `qemu_cond_wait` calls is woken, a
signal sent at any other moment is lost. -/
def signalW : WLoc → WLoc
  | WLoc.armedWait => WLoc.cycleTop
  | WLoc.cycleTop => WLoc.cycleTop
  | WLoc.sleeping iv => WLoc.sleeping iv
  | WLoc.waiting => WLoc.wokenChk
  | WLoc.wokenChk => WLoc.wokenChk
  | WLoc.done => WLoc.done

/-- Whole-system state: device fields, worker control location, and
whether `pci_fx_uninit` has run (after which it blocks in
`qemu_thread_join` and the reactor contexts service nothing else). -/
structure Sys where
  fx : FxState
  w : WLoc
  torn : Bool
deriving DecidableEq, Repr

/-- System state after `pci_fx_realize` and `conf_server_init`: the
worker was just created and blocks in `wait_device_driver`. -/
def sysInit (msi : Bool) : Sys :=
  { fx := fxInit msi, w := WLoc.armedWait, torn := false }

/-- Does a write of width `sz` at offset `addr` signal the rendezvous
condition variable?  Exactly the 4-byte writes to the start and
schedule-next registers do (fx.c lines 150-159). -/
def writeSignals (addr sz : Nat) : Bool :=
  sz == 4 && (addr == START_THREAD_REGISTER || addr == SCHEDULE_NEXT_REGISTER)

/-- Transition labels: controller MMIO writes, a configuration-channel
read callback, the worker's own steps, and teardown. -/
inductive Label where
  | write (addr v sz : Nat)
  | publish (r : ReadOutcome)
  | sleepRead (iv : Nat)
  | raise
  | contCycle
  | stopExit
  | teardown
deriving DecidableEq, Repr

/-- Is this label a rendezvous signal produced by a controller write to
the start or schedule-next register? -/
def isSig : Label → Bool
  | Label.write addr _ sz => writeSignals addr sz
  | Label.publish _ => false
  | Label.sleepRead _ => false
  | Label.raise => false
  | Label.contCycle => false
  | Label.stopExit => false
  | Label.teardown => false

/-- One step of the system.  Reactor-context steps (`mmioWrite`,
`confPublish`, `teardownStep`) require `torn = false`; worker steps are
guarded by the worker's control location. -/
inductive Step : Sys → Label → Sys → Prop where
  | mmioWrite (s : Sys) (addr v sz : Nat) (s2 : Sys) :
      s.torn = false →
      s2 = { s with
              fx := fx_mmio_write s.fx addr v sz,
              w := if writeSignals addr sz then signalW s.w else s.w } →
      Step s (Label.write addr v sz) s2
  | confPublish (s : Sys) (r : ReadOutcome) (s2 : Sys) :
      s.torn = false →
      s2 = { s with fx := read_conf_server_callback s.fx r } →
      Step s (Label.publish r) s2
  | sleepReadStep (s s2 : Sys) (iv : Nat) :
      s.w = WLoc.cycleTop →
      s.fx.conf_sleep_interval = iv →
      s2 = { s with w := WLoc.sleeping iv } →
      Step s (Label.sleepRead iv) s2
  | raiseStep (s s2 : Sys) (iv : Nat) :
      s.w = WLoc.sleeping iv →
      s2 = { s with fx := fx_raise_irq s.fx 1, w := WLoc.waiting } →
      Step s Label.raise s2
  | contStep (s s2 : Sys) :
      s.w = WLoc.wokenChk →
      s.fx.stopping = false →
      s2 = { s with w := WLoc.cycleTop } →
      Step s Label.contCycle s2
  | stopStep (s s2 : Sys) :
      s.w = WLoc.wokenChk →
      s.fx.stopping = true →
      s2 = { s with w := WLoc.done } →
      Step s Label.stopExit s2
  | teardownStep (s s2 : Sys) :
      s.torn = false →
      s2 = { s with
              fx := { s.fx with stopping := true },
              w := signalW s.w,
              torn := true } →
      Step s Label.teardown s2

/-- Finite executions: `Trace s ls sf` means the system goes from `s`
to `sf` through the steps labelled by `ls`. -/
inductive Trace : Sys → List Label → Sys → Prop where
  | nil (s : Sys) : Trace s [] s
  | cons (s s2 s3 : Sys) (l : Label) (ls : List Label) :
      Step s l s2 → Trace s2 ls s3 → Trace s (l :: ls) s3

/-- A trace along an appended label list splits at the seam. -/
theorem trace_append_split (a : List Label) :
    ∀ (b : List Label) (s sf : Sys), Trace s (a ++ b) sf →
      ∃ m : Sys, Trace s a m ∧ Trace m b sf := by
  induction a with
  | nil =>
      intro b s sf h
      exact ⟨s, Trace.nil s, h⟩
  | cons l a ih =>
      intro b s sf h
      cases h with
      | cons _ s2 _ _ _ hstep htr =>
          obtain ⟨m, h1, h2⟩ := ih b s2 sf htr
          exact ⟨m, Trace.cons s s2 m l a hstep h1, h2⟩

/-- Register writes do not touch the stop flag. -/
theorem fx_mmio_write_stopping (fx : FxState) (a v sz : Nat) :
    (fx_mmio_write fx a v sz).stopping = fx.stopping := by
  unfold fx_mmio_write
  repeat' split
  all_goals rfl

/-- Register writes do not touch the configured interval. -/
theorem fx_mmio_write_conf (fx : FxState) (a v sz : Nat) :
    (fx_mmio_write fx a v sz).conf_sleep_interval = fx.conf_sleep_interval := by
  unfold fx_mmio_write
  repeat' split
  all_goals rfl

/-! ## C1: two raises are separated by a controller signal write -/

/-- States from which the worker cannot reach another raise without an
intervening rendezvous signal from a controller write: it is blocked in
the post-raise wait, or woken with the stop flag already set, or
terminated. -/
def quiesced (s : Sys) : Prop :=
  s.w = WLoc.waiting ∨ (s.w = WLoc.wokenChk ∧ s.fx.stopping = true) ∨
    s.w = WLoc.done

/-- Every step that is not a signal-producing controller write preserves
`quiesced`: the stop flag is never cleared, lost signals do not move the
worker, and a teardown signal wakes the worker only into the
stop-flag check with the flag already set. -/
theorem quiesced_step (s s2 : Sys) (l : Label) (hq : quiesced s)
    (hl : isSig l = false) (h : Step s l s2) : quiesced s2 := by
  cases h with
  | mmioWrite addr v sz t htorn heq =>
      subst heq
      simp only [isSig] at hl
      unfold quiesced at hq ⊢
      simpa [hl, fx_mmio_write_stopping] using hq
  | confPublish r t htorn heq =>
      subst heq
      unfold quiesced at hq ⊢
      simpa [read_conf_server_callback] using hq
  | sleepReadStep t iv hw hconf heq =>
      unfold quiesced at hq
      rcases hq with hx | ⟨hx, _⟩ | hx <;> rw [hx] at hw <;>
        exact WLoc.noConfusion hw
  | raiseStep t iv hw heq =>
      unfold quiesced at hq
      rcases hq with hx | ⟨hx, _⟩ | hx <;> rw [hx] at hw <;>
        exact WLoc.noConfusion hw
  | contStep t hw hstop heq =>
      unfold quiesced at hq
      rcases hq with hx | ⟨hx, hs⟩ | hx
      · rw [hx] at hw
        exact WLoc.noConfusion hw
      · rw [hs] at hstop
        exact Bool.noConfusion hstop
      · rw [hx] at hw
        exact WLoc.noConfusion hw
  | stopStep t hw hstop heq =>
      subst heq
      unfold quiesced
      right; right; rfl
  | teardownStep t htorn heq =>
      subst heq
      unfold quiesced at hq ⊢
      rcases hq with hx | ⟨hx, _⟩ | hx <;> simp [signalW, hx]

/-- From a `quiesced` state, no raise can occur in a trace before some
signal-producing controller write. -/
theorem sig_before_raise (pre : List Label) :
    ∀ (post : List Label) (s sf : Sys), quiesced s →
      Trace s (pre ++ Label.raise :: post) sf →
      ∃ l : Label, l ∈ pre ∧ isSig l = true := by
  induction pre with
  | nil =>
      intro post s sf hq htr
      exfalso
      cases htr with
      | cons _ s2 _ _ _ hstep htr2 =>
          cases hstep with
          | raiseStep t iv hw heq =>
              unfold quiesced at hq
              rcases hq with hx | ⟨hx, _⟩ | hx <;> rw [hx] at hw <;>
                exact WLoc.noConfusion hw
  | cons l pre2 ih =>
      intro post s sf hq htr
      cases htr with
      | cons _ s2 _ _ _ hstep htr2 =>
          by_cases hsig : isSig l = true
          · exact ⟨l, List.mem_cons_self l pre2, hsig⟩
          · have hq2 : quiesced s2 :=
              quiesced_step s s2 l hq (by simpa using hsig) hstep
            obtain ⟨l2, hmem, hs2⟩ := ih post s2 sf hq2 htr2
            exact ⟨l2, List.mem_cons_of_mem l hmem, hs2⟩

/-- C1: in every execution from the initial state, between any two
raises of the Event Worker there is a rendezvous signal produced by a
controller write to the start or schedule-next register. -/
theorem C1_raise_separation (msi : Bool) (ls : List Label) (sf : Sys)
    (htr : Trace (sysInit msi) ls sf) (a b c : List Label)
    (hls : ls = a ++ Label.raise :: (b ++ Label.raise :: c)) :
    ∃ l : Label, l ∈ b ∧ isSig l = true := by
  subst hls
  obtain ⟨m, hta, htr2⟩ :=
    trace_append_split a (Label.raise :: (b ++ Label.raise :: c)) (sysInit msi) sf htr
  cases htr2 with
  | cons _ m2 _ _ _ hstep htr3 =>
      have hq : quiesced m2 := by
        cases hstep with
        | raiseStep t iv hw heq =>
            subst heq
            unfold quiesced
            left
            rfl
      exact sig_before_raise b c m2 sf hq htr3

/-- C1 witness: a concrete execution with two raises; the theorem
locates the signaling schedule-next write between them. -/
theorem C1_witness :
    ∃ l : Label,
      l ∈ [Label.write SCHEDULE_NEXT_REGISTER 0 4, Label.contCycle,
           Label.sleepRead CONF_INTERVAL_DEFAULT] ∧ isSig l = true := by
  have htr :=
    Trace.cons _ _ _ _ _
      (Step.mmioWrite (sysInit false) START_THREAD_REGISTER 0 4 _ rfl rfl)
      (Trace.cons _ _ _ _ _ (Step.sleepReadStep _ _ _ rfl rfl rfl)
        (Trace.cons _ _ _ _ _ (Step.raiseStep _ _ _ rfl rfl)
          (Trace.cons _ _ _ _ _
            (Step.mmioWrite _ SCHEDULE_NEXT_REGISTER 0 4 _ rfl rfl)
            (Trace.cons _ _ _ _ _ (Step.contStep _ _ rfl rfl rfl)
              (Trace.cons _ _ _ _ _ (Step.sleepReadStep _ _ _ rfl rfl rfl)
                (Trace.cons _ _ _ _ _ (Step.raiseStep _ _ _ rfl rfl)
                  (Trace.nil _)))))))
  exact C1_raise_separation false _ _ htr
    [Label.write START_THREAD_REGISTER 0 4,
     Label.sleepRead CONF_INTERVAL_DEFAULT]
    [Label.write SCHEDULE_NEXT_REGISTER 0 4, Label.contCycle,
     Label.sleepRead CONF_INTERVAL_DEFAULT]
    [] rfl

/-! ## C2: teardown loses the wakeup when the worker is mid-sleep

`pci_fx_uninit` sets `stopping` and signals `thr_cond` exactly once.
If the worker is inside `g_usleep` at that moment, nothing is blocked in
`qemu_cond_wait`, so the signal is lost; the worker then finishes the
sleep, raises the interrupt and enters `qemu_cond_wait` — and no future
signal can arrive, because `pci_fx_uninit` is blocked in
`qemu_thread_join` holding the global lock.  The state below is
reachable and has no outgoing transition at all. -/

/-- Deadlocked state: stop requested, teardown in `qemu_thread_join`,
worker blocked forever in the post-raise `qemu_cond_wait`. -/
def sDead : Sys :=
  { fx := { irq_status := 1
            card_liveness := 0xdeadbeef
            stopping := true
            conf_sleep_interval := CONF_INTERVAL_DEFAULT
            msi_enabled := false
            irq_level := true
            msi_count := 0
            connOpen := false }
    w := WLoc.waiting
    torn := true }

/-- The deadlocked state has no outgoing transition: reactor steps are
blocked behind the join, and the worker can only leave `waiting` via a
signal that can no longer be produced. -/
theorem sDead_no_step : ∀ (l : Label) (s2 : Sys), ¬ Step sDead l s2 := by
  intro l s2 h
  cases h with
  | mmioWrite addr v sz t htorn heq => exact absurd htorn (by decide)
  | confPublish r t htorn heq => exact absurd htorn (by decide)
  | sleepReadStep t iv hw hconf heq => exact absurd hw (by decide)
  | raiseStep t iv hw heq => exact WLoc.noConfusion (show WLoc.waiting = WLoc.sleeping iv from hw)
  | contStep t hw hstop heq => exact absurd hw (by decide)
  | stopStep t hw hstop heq => exact absurd hw (by decide)
  | teardownStep t htorn heq => exact absurd htorn (by decide)

/-- C2 (code bug): teardown initiated while the worker is mid-sleep
reaches a state in which the stop flag is set, the worker is blocked in
its rendezvous wait, no transition is enabled any more, and no
continuation of the execution ever brings the worker to `done` — so
`qemu_thread_join` never returns, contradicting the claim that the
worker always wakes, observes the stop flag and terminates. -/
theorem C2_teardown_deadlock :
    (∃ ls : List Label, Trace (sysInit false) ls sDead) ∧
    sDead.fx.stopping = true ∧ sDead.torn = true ∧ sDead.w = WLoc.waiting ∧
    (∀ (l : Label) (s2 : Sys), ¬ Step sDead l s2) ∧
    (∀ (ls2 : List Label) (s3 : Sys), Trace sDead ls2 s3 → s3.w ≠ WLoc.done) := by
  refine ⟨⟨[Label.write START_THREAD_REGISTER 0 4,
            Label.sleepRead CONF_INTERVAL_DEFAULT,
            Label.teardown, Label.raise], ?_⟩,
          rfl, rfl, rfl, sDead_no_step, ?_⟩
  · exact Trace.cons _ _ _ _ _
      (Step.mmioWrite (sysInit false) START_THREAD_REGISTER 0 4 _ rfl rfl)
      (Trace.cons _ _ _ _ _ (Step.sleepReadStep _ _ _ rfl rfl rfl)
        (Trace.cons _ _ _ _ _ (Step.teardownStep _ _ rfl rfl)
          (Trace.cons _ _ _ _ _ (Step.raiseStep _ sDead _ rfl rfl)
            (Trace.nil sDead))))
  · intro ls2 s3 htr
    cases htr with
    | nil => decide
    | cons _ s2 _ _ _ hstep htr2 => exact absurd hstep (sDead_no_step _ _)

/-! ## C7: a published interval is read fresh by the next sleep -/

/-- Every step that is not a configuration-channel publish leaves the
published interval unchanged. -/
theorem step_conf_preserved (s s2 : Sys) (l : Label) (h : Step s l s2)
    (hnp : ∀ r : ReadOutcome, l ≠ Label.publish r) :
    s2.fx.conf_sleep_interval = s.fx.conf_sleep_interval := by
  cases h with
  | mmioWrite addr v sz t htorn heq =>
      subst heq
      exact fx_mmio_write_conf s.fx addr v sz
  | confPublish r t htorn heq => exact absurd rfl (hnp r)
  | sleepReadStep t iv hw hconf heq =>
      subst heq
      rfl
  | raiseStep t iv hw heq =>
      subst heq
      rfl
  | contStep t hw hstop heq =>
      subst heq
      rfl
  | stopStep t hw hstop heq =>
      subst heq
      rfl
  | teardownStep t htorn heq =>
      subst heq
      rfl

/-- The interval value carried by a `sleepRead` label is the value of
`conf_sleep_interval` at the start of the trace segment, provided no
publish occurs before it. -/
theorem conf_read_fresh (pre : List Label) :
    ∀ (iv : Nat) (post : List Label) (s sf : Sys),
      Trace s (pre ++ Label.sleepRead iv :: post) sf →
      (∀ r : ReadOutcome, Label.publish r ∉ pre) →
      iv = s.fx.conf_sleep_interval := by
  induction pre with
  | nil =>
      intro iv post s sf htr hnp
      cases htr with
      | cons _ s2 _ _ _ hstep htr2 =>
          cases hstep with
          | sleepReadStep t iv2 hw hconf heq => exact hconf.symm
  | cons l pre2 ih =>
      intro iv post s sf htr hnp
      cases htr with
      | cons _ s2 _ _ _ hstep htr2 =>
          have hl : ∀ r : ReadOutcome, l ≠ Label.publish r := by
            intro r he
            exact hnp r (by rw [he]; exact List.mem_cons_self _ _)
          have hc := step_conf_preserved s s2 l hstep hl
          have hnp2 : ∀ r : ReadOutcome, Label.publish r ∉ pre2 := by
            intro r hm
            exact hnp r (List.mem_cons_of_mem l hm)
          rw [ih iv post s2 sf htr2 hnp2, hc]

/-- C7: after the configuration channel publishes a value, the next
`sleepRead` with no publish in between reads exactly the published
value (the 32-bit truncation of the received buffer). -/
theorem C7_publish_takes_effect (msi : Bool) (ls : List Label) (sf : Sys)
    (htr : Trace (sysInit msi) ls sf) (a : List Label) (r : ReadOutcome)
    (b : List Label) (iv : Nat) (c : List Label)
    (hls : ls = a ++ Label.publish r :: (b ++ Label.sleepRead iv :: c))
    (hb : ∀ q : ReadOutcome, Label.publish q ∉ b) :
    iv = r.bufAfter % U32 := by
  subst hls
  obtain ⟨m, hta, htr2⟩ := trace_append_split a _ (sysInit msi) sf htr
  cases htr2 with
  | cons _ m2 _ _ _ hstep htr3 =>
      have hconf : m2.fx.conf_sleep_interval = r.bufAfter % U32 := by
        cases hstep with
        | confPublish r2 t htorn heq =>
            subst heq
            rfl
      rw [conf_read_fresh b iv c m2 sf htr3 hb, hconf]

/-- C7 witness: publishing interval 5, then starting the worker, makes
its first sleep computation read 5. -/
theorem C7_witness : (5 : Nat) = (ReadOutcome.mk 4 5).bufAfter % U32 := by
  have htr :=
    Trace.cons _ _ _ _ _
      (Step.confPublish (sysInit false) (ReadOutcome.mk 4 5) _ rfl rfl)
      (Trace.cons _ _ _ _ _
        (Step.mmioWrite _ START_THREAD_REGISTER 0 4 _ rfl rfl)
        (Trace.cons _ _ _ _ _ (Step.sleepReadStep _ _ _ rfl rfl rfl)
          (Trace.nil _)))
  refine C7_publish_takes_effect false _ _ htr [] (ReadOutcome.mk 4 5)
    [Label.write START_THREAD_REGISTER 0 4] 5 [] rfl ?_
  intro q hm
  simp at hm

end Fx
